import Mathlib

/-!
Verification of the nabu-enkiflow classification-and-summarization pipeline.

This development shallowly embeds the core pipeline of the repository:
`src/unnamed/part_003` (label definitions, cosine similarity, anchor
precomputation, label extraction), `src/unnamed/part_002`
(`batchClassifyFeedback`), `src/nabu/nabu/src/lib/classifier.ts`
(`classifyFeedback`, `saveClassifications`), `src/nabu/nabu/src/lib/summary.ts`
(`generateExecutiveSummary`) and the urgency `CASE` expressions of
`src/nabu/nabu/src/index.ts` (`getFeedback`, `getMetrics`).

Modelling conventions:
- The external AI inference endpoint is a parameter `embed` of type
  `EmbedFn` (a batched text-to-vectors call that can fail), and the
  generative completion service is a parameter `complete : CompleteFn`.
- Numeric similarity scores are exact rationals `ℚ`; the numeric kernel
  `cosineSimilarity` itself is analysed separately over `ℝ` (its JS source
  computes with floats; all the control flow that the claims are about
  compares scores against exact decimal thresholds, which we write as
  `mkRat` literals, e.g. `0.65` is `mkRat 65 100`).
- The similarity computation used inside the classifier loops is a
  parameter `sim : SimFn` standing for `cosineSimilarity`, which can fail
  (in the source a dimension mismatch throws); this keeps the classifier
  control flow, which is what the claims describe, fully executable.
- JavaScript `String.prototype.split(' ')[0]`, `String.prototype.startsWith`
  and `Math.abs` are modelled on character lists / by sign test so that all
  definitions evaluate inside the kernel.
- The D1 database is modelled by the list of rows the code binds into its
  `INSERT` statements; SQL `NULL` is `Option.none`, and the JS falsy-or-null
  coercion `x || null` is `orNullStr` / `orNullNum`.
-/

deriving instance DecidableEq for Except

namespace Nabu

/-! ### Vector math over ℝ (src/unnamed/part_003, `cosineSimilarity`) -/

/-- Error raised by `cosineSimilarity` when the two vectors have different
lengths (`throw new Error('Vectors must have the same length')`). -/
inductive SimError where
  | dimensionMismatch
deriving DecidableEq, Repr

/-- The dot product `vecA.reduce((sum, a, i) => sum + a * vecB[i], 0)` for
equal-length vectors. -/
def dotProduct (vecA vecB : List ℝ) : ℝ :=
  (vecA.zip vecB).foldl (fun sum p => sum + p.1 * p.2) 0

/-- The sum of squares `vec.reduce((sum, a) => sum + a * a, 0)`. -/
def sumSquares (vec : List ℝ) : ℝ :=
  vec.foldl (fun sum a => sum + a * a) 0

/-- The magnitude of a vector,
`Math.sqrt(vec.reduce((sum, a) => sum + a * a, 0))`. -/
noncomputable def magnitude (vec : List ℝ) : ℝ :=
  Real.sqrt (sumSquares vec)

open Classical in
/-- The function `cosineSimilarity(vecA, vecB)` from `src/unnamed/part_003`: fails on a
length mismatch, returns `0` when either magnitude is zero, and otherwise
returns `dot / (|a|·|b|)`. -/
noncomputable def cosineSimilarity (vecA vecB : List ℝ) : Except SimError ℝ :=
  if vecA.length ≠ vecB.length then
    .error .dimensionMismatch
  else
    let dp := dotProduct vecA vecB
    let magnitudeA := magnitude vecA
    let magnitudeB := magnitude vecB
    if magnitudeA = 0 ∨ magnitudeB = 0 then .ok 0
    else .ok (dp / (magnitudeA * magnitudeB))

/-! ### Label definitions and string helpers (src/unnamed/part_003) -/

/-- One entry of `LABEL_DEFINITIONS`: a category name with its ordered
anchor label texts. -/
structure LabelDefinition where
  category : String
  labels : List String
deriving DecidableEq, Repr

/-- The hard-coded `LABEL_DEFINITIONS` table of `src/unnamed/part_003`. -/
def LABEL_DEFINITIONS : List LabelDefinition := [
  { category := "products",
    labels := [
      "D1 Cloudflare database SQL storage querying",
      "KV Workers key-value store caching",
      "AI Workers machine learning inference models",
      "R2 object storage buckets files",
      "Workflows orchestration stateful functions",
      "DDoS protection security mitigation"] },
  { category := "polarity",
    labels := [
      "positive satisfied excellent working well happy pleased",
      "neutral okay fine average acceptable functional",
      "negative frustrated broken failing disappointed angry"] },
  { category := "urgency",
    labels := [
      "critical urgent blocking production emergency immediate down",
      "high priority important impacting significant",
      "medium normal standard routine moderate",
      "low minor casual suggestion nice-to-have future"] },
  { category := "feedbackType",
    labels := [
      "bug error failure broken crash exception not working",
      "feature_request enhancement new capability need want",
      "documentation help guide tutorial unclear confusing",
      "performance slow latency timeout speed optimization",
      "pricing cost billing expensive tier limit quota"] },
  { category := "churnRisk",
    labels := [
      "high risk leaving switching competitor alternative canceling frustrated quitting",
      "medium risk neutral evaluating considering exploring options unsure",
      "low risk satisfied staying committed continuing happy loyal"] }]

/-- The function `extractLabelName(fullLabel)`, i.e. `fullLabel.split(' ')[0]`: the text up to
the first space (modelled on the character list so it evaluates in the
kernel; agrees with `split(' ')[0]` on every input). -/
def extractLabelName (fullLabel : String) : String :=
  String.mk (fullLabel.toList.takeWhile (fun c => c ≠ ' '))

/-- JavaScript `s.startsWith(p)`, modelled on character lists. -/
def strStartsWith (s p : String) : Bool :=
  p.toList.isPrefixOf s.toList

/-- JavaScript `Math.abs` on an exact rational. -/
def jsAbs (q : ℚ) : ℚ :=
  if q < 0 then -q else q

/-! ### Pipeline data model -/

/-- A feedback embedding vector (the classifier only passes these around). -/
abbrev Vec := List ℚ

/-- One `(labelText, vector)` anchor pair (`LabelEmbedding`). -/
structure LabelEmbedding where
  label : String
  embedding : Vec
deriving DecidableEq, Repr

/-- One category's anchor set (`CategoryEmbeddings`). -/
structure CategoryEmbeddings where
  category : String
  embeddings : List LabelEmbedding
deriving DecidableEq, Repr

/-- The `ClassificationResult` record from `classifier.ts`. -/
structure ClassificationResult where
  category : String
  label : String
  confidence : ℚ
deriving DecidableEq, Repr

/-- The batched embedding inference call `ai.run('@cf/baai/bge-base-en-v1.5',
{text: [...]})`, as an oracle: a list of texts to one vector list, or a
call-level failure (the thrown error, modelled by its message). -/
abbrev EmbedFn := List String → Except String (List Vec)

/-- The similarity kernel used inside the classifier loops, standing for
`cosineSimilarity` (which can throw on a dimension mismatch). -/
abbrev SimFn := Vec → Vec → Except String ℚ

/-! ### Anchor precomputation (src/unnamed/part_003, `precomputeLabelEmbeddings`) -/

/-- Sequential effectful map over a list (the `for ... await` / fail-fast
`map` pattern of the source): stop at the first failure, otherwise collect
the results in order. -/
def mapE {α β : Type} (f : α → Except String β) : List α → Except String (List β)
  | [] => .ok []
  | x :: xs =>
    match f x with
    | .error e => .error e
    | .ok y =>
      match mapE f xs with
      | .error e => .error e
      | .ok ys => .ok (y :: ys)

/-- The binding step `labelDef.labels.map((label, index) => ({label, embedding:
Array.from(embeddingData[index])}))`: binds each returned vector to its
source label text by positional index; `Array.from(undefined)` throws when
the response is shorter than the label list. -/
def bindVectors (labels : List String) (data : List Vec) :
    Except String (List LabelEmbedding) :=
  mapE (fun p =>
    match data.get? p.1 with
    | some v => .ok { label := p.2, embedding := v }
    | none => .error "TypeError: Array.from(undefined)") labels.enum

/-- The function `precomputeLabelEmbeddings(ai)`: one batched embedding call per category
of `LABEL_DEFINITIONS`; any failure is logged and rethrown, so it aborts the
whole precomputation. -/
def precomputeLabelEmbeddings (embed : EmbedFn) :
    Except String (List CategoryEmbeddings) :=
  mapE (fun labelDef => do
    let data ← embed labelDef.labels
    let embeddings ← bindVectors labelDef.labels data
    pure { category := labelDef.category, embeddings := embeddings }) LABEL_DEFINITIONS

/-! ### Chunking (src/unnamed/part_002, the `for (let i = 0; i < n; i += chunkSize)` loops) -/

/-- Fuel-driven worker for `chunksOf` (structural recursion on the fuel so
that everything evaluates in the kernel). -/
def chunksOfFuel (k : ℕ) : ℕ → List α → List (List α)
  | _, [] => []
  | 0, l => [l]
  | fuel + 1, x :: xs => (x :: xs).take k :: chunksOfFuel k fuel ((x :: xs).drop k)

/-- The loop `for (let i = 0; i < l.length; i += k) chunks.push(l.slice(i, i + k))`:
split a list into consecutive chunks of size `k` (the last chunk possibly
smaller). -/
def chunksOf (k : ℕ) (l : List α) : List (List α) :=
  chunksOfFuel k l.length l

/-! ### Batch classification (src/unnamed/part_002, `batchClassifyFeedback`) -/

/-- A `(id, content)` job input pair. -/
structure FeedbackItemIn where
  id : ℕ
  content : String
deriving DecidableEq, Repr

/-- The chunk loop of Step 2 of `batchClassifyFeedback`: one embedding call
per chunk, in order, appending each response onto `allEmbeddings`
(`allEmbeddings.push(...chunkEmbeddings)`); a chunk call failure propagates. -/
def embedChunks (embed : EmbedFn) : List (List FeedbackItemIn) → Except String (List Vec)
  | [] => .ok []
  | chunk :: rest =>
    match embed (chunk.map (·.content)) with
    | .error e => .error e
    | .ok d =>
      match embedChunks embed rest with
      | .error e => .error e
      | .ok ds => .ok (d ++ ds)

/-- Step 2 of `batchClassifyFeedback`: embed the feedback items in chunks of
100 and concatenate the returned vectors in chunk order. -/
def itemEmbeddings (embed : EmbedFn) (items : List FeedbackItemIn) :
    Except String (List Vec) :=
  embedChunks embed (chunksOf 100 items)

/-- The selection `similarities.reduce((max, curr) => (curr.score > max.score ? curr :
max))`: JS `reduce` with no initial value throws on an empty array and
otherwise folds from the first element, keeping the incumbent on ties. -/
def bestMatch (sims : List (String × ℚ)) : Except String (String × ℚ) :=
  match sims with
  | [] => .error "TypeError: Reduce of empty array with no initial value"
  | first :: rest =>
    .ok (rest.foldl (fun max curr => if curr.2 > max.2 then curr else max) first)

/-- The scoring step `categoryData.embeddings.map((labelEmbed) => ({label, score:
cosineSimilarity(feedbackEmbedding, labelEmbed.embedding)}))`. -/
def computeSimilarities (sim : SimFn) (v : Vec) (embeds : List LabelEmbedding) :
    Except String (List (String × ℚ)) :=
  mapE (fun le => (sim v le.embedding).map (fun s => (le.label, s))) embeds

/-- One category of the inner classification loop of `batchClassifyFeedback`:
similarities, best match, then
`{category, label: extractLabelName(bestMatch.label), confidence:
bestMatch.score}`. -/
def classifyCategory (sim : SimFn) (v : Vec) (categoryData : CategoryEmbeddings) :
    Except String ClassificationResult := do
  let similarities ← computeSimilarities sim v categoryData.embeddings
  let best ← bestMatch similarities
  pure { category := categoryData.category,
         label := extractLabelName best.1,
         confidence := best.2 }

/-- The full per-item classification map of the batch path: one
`ClassificationResult` per category, keyed by category name (the JS
`Record<string, ClassificationResult>` in insertion order). -/
def classifyItem (sim : SimFn) (v : Vec) (labelEmbeddings : List CategoryEmbeddings) :
    Except String (List (String × ClassificationResult)) :=
  mapE (fun cd => (classifyCategory sim v cd).map (fun r => (cd.category, r))) labelEmbeddings

/-- One entry of `batchResults`: `{id: item.id, classifications}`. -/
structure BatchResult where
  id : ℕ
  classifications : List (String × ClassificationResult)
deriving DecidableEq, Repr

/-- JS `x || null` on an optional string column value: `undefined`, `null`
and `''` all become SQL `NULL`. -/
def orNullStr (x : Option String) : Option String :=
  match x with
  | some s => if s = "" then none else some s
  | none => none

/-- JS `x || null` on an optional numeric column value: `undefined`, `null`
and `0` all become SQL `NULL`. -/
def orNullNum (x : Option ℚ) : Option ℚ :=
  match x with
  | some q => if q = 0 then none else some q
  | none => none

/-- One row bound into the `INSERT INTO classifications` statement. -/
structure Row where
  feedback_id : ℕ
  sentiment : Option String
  sentiment_confidence : Option ℚ
  urgency : Option String
  urgency_confidence : Option ℚ
  product_detected : Option String
  product_confidence : Option ℚ
  feedback_type : Option String
  feedback_type_confidence : Option ℚ
  churn_risk : Option String
deriving DecidableEq, Repr

/-- The per-result row mapping of the bulk save loop of
`batchClassifyFeedback` (`res.classifications.polarity?.label || null` and
friends). -/
def mkRow (res : BatchResult) : Row :=
  { feedback_id := res.id,
    sentiment := orNullStr (((res.classifications.lookup "polarity").map (·.label))),
    sentiment_confidence := orNullNum (((res.classifications.lookup "polarity").map (·.confidence))),
    urgency := orNullStr (((res.classifications.lookup "urgency").map (·.label))),
    urgency_confidence := orNullNum (((res.classifications.lookup "urgency").map (·.confidence))),
    product_detected := orNullStr (((res.classifications.lookup "products").map (·.label))),
    product_confidence := orNullNum (((res.classifications.lookup "products").map (·.confidence))),
    feedback_type := orNullStr (((res.classifications.lookup "feedbackType").map (·.label))),
    feedback_type_confidence := orNullNum (((res.classifications.lookup "feedbackType").map (·.confidence))),
    churn_risk := orNullStr (((res.classifications.lookup "churnRisk").map (·.label))) }

/-- The identical column mapping of the single-item save path
`saveClassifications` in `classifier.ts` (the row it binds into its
`INSERT`). -/
def saveClassificationsRow (feedbackId : ℕ)
    (classifications : List (String × ClassificationResult)) : Row :=
  { feedback_id := feedbackId,
    sentiment := orNullStr (((classifications.lookup "polarity").map (·.label))),
    sentiment_confidence := orNullNum (((classifications.lookup "polarity").map (·.confidence))),
    urgency := orNullStr (((classifications.lookup "urgency").map (·.label))),
    urgency_confidence := orNullNum (((classifications.lookup "urgency").map (·.confidence))),
    product_detected := orNullStr (((classifications.lookup "products").map (·.label))),
    product_confidence := orNullNum (((classifications.lookup "products").map (·.confidence))),
    feedback_type := orNullStr (((classifications.lookup "feedbackType").map (·.label))),
    feedback_type_confidence := orNullNum (((classifications.lookup "feedbackType").map (·.confidence))),
    churn_risk := orNullStr (((classifications.lookup "churnRisk").map (·.label))) }

/-- The classification loop of `batchClassifyFeedback` over
`(item, feedbackEmbeddings[i])` pairs: a missing vector increments `failed`
and skips the item; otherwise the item is classified inside `try`/`catch`,
incrementing `classified` and pushing a `batchResults` entry on success and
incrementing `failed` on a thrown error. Returns
`(classified, failed, batchResults)`. -/
def classifyLoop (sim : SimFn) (anchors : List CategoryEmbeddings) :
    List (FeedbackItemIn × Option Vec) → ℕ × ℕ × List BatchResult
  | [] => (0, 0, [])
  | (item, ov) :: rest =>
    let (c, f, rs) := classifyLoop sim anchors rest
    match ov with
    | none => (c, f + 1, rs)
    | some v =>
      match classifyItem sim v anchors with
      | .ok cls => (c + 1, f, { id := item.id, classifications := cls } :: rs)
      | .error _ => (c, f + 1, rs)

/-- The result of a bulk classification job: the `{classified, failed}`
counts plus the batched `INSERT` rows sent to `db.batch` (one group per
save chunk of 50). -/
structure BatchOutput where
  classified : ℕ
  failed : ℕ
  saveBatches : List (List Row)
deriving DecidableEq, Repr

/-- The `(feedbackItems[i], feedbackEmbeddings[i])` pairing of the
classification loop: the item at position `i` is matched with the vector at
position `i` (`undefined`, i.e. `none`, when the concatenated response is
too short). -/
def pairsOf (items : List FeedbackItemIn) (vecs : List Vec) :
    List (FeedbackItemIn × Option Vec) :=
  items.enum.map (fun p => (p.2, vecs.get? p.1))

/-- The function `batchClassifyFeedback(feedbackItems, db, ai)` from
`src/unnamed/part_002`: precompute anchors (fatal on failure), embed all
items in chunks of 100, classify each item positionally, then save the
results in chunks of 50. -/
def batchClassifyFeedback (embed : EmbedFn) (sim : SimFn)
    (items : List FeedbackItemIn) : Except String BatchOutput := do
  let labelEmbeddings ← precomputeLabelEmbeddings embed
  let feedbackEmbeddings ← itemEmbeddings embed items
  let pairs := pairsOf items feedbackEmbeddings
  let res := classifyLoop sim labelEmbeddings pairs
  let saveBatches := (chunksOf 50 res.2.2).map (fun chunk => chunk.map mkRow)
  pure { classified := res.1, failed := res.2.1, saveBatches := saveBatches }

/-- Derived view of one step of `classifyLoop`: the `batchResults` entry the
loop produces for a pair, if any (`none` when the vector is missing or the
per-item classification throws). -/
def resultOf (sim : SimFn) (anchors : List CategoryEmbeddings)
    (p : FeedbackItemIn × Option Vec) : Option BatchResult :=
  match p.2 with
  | none => none
  | some v =>
    match classifyItem sim v anchors with
    | .ok cls => some { id := p.1.id, classifications := cls }
    | .error _ => none

/-- Whether a pair is counted as `classified` by the loop. -/
def itemSucceeds (sim : SimFn) (anchors : List CategoryEmbeddings)
    (p : FeedbackItemIn × Option Vec) : Bool :=
  (resultOf sim anchors p).isSome

/-- The job-output contract of the bulk classification path (claim C9): the
counts partition the input positionally, and the persisted rows are exactly
the successfully classified pairs in input order. -/
def batchCountsSpec (sim : SimFn) (anchors : List CategoryEmbeddings)
    (items : List FeedbackItemIn) (vecs : List Vec) (out : BatchOutput) : Prop :=
  out.classified = (pairsOf items vecs).countP (itemSucceeds sim anchors) ∧
  out.failed = (pairsOf items vecs).countP (fun p => !(itemSucceeds sim anchors p)) ∧
  out.classified + out.failed = items.length ∧
  out.saveBatches.flatten.map (·.feedback_id) =
    ((pairsOf items vecs).filter (itemSucceeds sim anchors)).map (·.1.id) ∧
  ((items.map (·.id)).Nodup →
    ∀ (i : ℕ) (hi : i < items.length), vecs.get? i = none →
      ¬ (items.get ⟨i, hi⟩).id ∈ out.saveBatches.flatten.map (·.feedback_id))

/-! ### Single-item classification path (classifier.ts, `classifyFeedback`) -/

/-- The scores of one category's `similarities` array, sorted descending
(`similarities.sort((a, b) => b.score - a.score)` then reading `.score`):
a numeric-comparator JS sort produces exactly the descending-sorted
sequence of score values. -/
def sortedScoresDesc (sims : List (String × ℚ)) : List ℚ :=
  (sims.map (·.2)).insertionSort (· ≥ ·)

/-- The mixed-sentiment test of `classifyFeedback`: `topTwo =
sorted.slice(0, 2); topTwo.length === 2 && Math.abs(topTwo[0].score -
topTwo[1].score) < 0.15`. -/
def mixedSentimentCheck (sims : List (String × ℚ)) : Bool :=
  match sortedScoresDesc sims with
  | t0 :: t1 :: _ => jsAbs (t0 - t1) < mkRat 15 100
  | _ => false

/-- The per-category outcome of one iteration of the `classifyFeedback`
loop: the category's anchor data, its `similarities` array and its
`bestMatch`. -/
structure CategoryOutcome where
  categoryData : CategoryEmbeddings
  similarities : List (String × ℚ)
  best : String × ℚ
deriving DecidableEq, Repr

/-- The `for (const categoryData of labelEmbeddings)` loop of
`classifyFeedback`, recording each category's similarities and best match. -/
def categoryOutcomes (sim : SimFn) (v : Vec) (anchors : List CategoryEmbeddings) :
    Except String (List CategoryOutcome) :=
  mapE (fun cd => do
    let sims ← computeSimilarities sim v cd.embeddings
    let best ← bestMatch sims
    pure { categoryData := cd, similarities := sims, best := best }) anchors

/-- The `lowestConfidence` accumulator of `classifyFeedback`: starts at
`1.0` and is lowered by each category's best score
(`if (bestMatch.score < lowestConfidence) lowestConfidence =
bestMatch.score`). -/
def lowestConfidenceOf (outs : List CategoryOutcome) : ℚ :=
  outs.foldl (fun lowest o => if o.best.2 < lowest then o.best.2 else lowest) 1

/-- The `hasCriticalUrgency` flag: set when the urgency category's winning
anchor label text starts with `'critical'`. -/
def hasCriticalUrgencyOf (outs : List CategoryOutcome) : Bool :=
  outs.any (fun o => o.categoryData.category == "urgency" && strStartsWith o.best.1 "critical")

/-- The `hasMixedSentiment` flag: set when the polarity category's top two
similarity scores differ by less than `0.15`. -/
def hasMixedSentimentOf (outs : List CategoryOutcome) : Bool :=
  outs.any (fun o => o.categoryData.category == "polarity" && mixedSentimentCheck o.similarities)

/-- The per-item result of `classifyFeedback` in `classifier.ts`. -/
structure FeedbackClassifications where
  classifications : List (String × ClassificationResult)
  needsRefinement : Bool
  refinementReason : Option String
deriving DecidableEq, Repr

/-- The function `classifyFeedback(feedbackText, feedbackId, labelEmbeddings, ai)` from
`classifier.ts`, given the item's embedding vector `v` (the upstream
single-text `ai.run` call): classify every category, then derive
`needsRefinement = lowestConfidence < 0.65 || hasCriticalUrgency ||
hasMixedSentiment` and `refinementReason` by the first-match `if`/`else if`
chain. -/
def classifyFeedback (sim : SimFn) (v : Vec) (anchors : List CategoryEmbeddings) :
    Except String FeedbackClassifications := do
  let outs ← categoryOutcomes sim v anchors
  let classifications := outs.map (fun o =>
    (o.categoryData.category,
     ({ category := o.categoryData.category,
        label := extractLabelName o.best.1,
        confidence := o.best.2 } : ClassificationResult)))
  let lowestConfidence := lowestConfidenceOf outs
  let hasCriticalUrgency := hasCriticalUrgencyOf outs
  let hasMixedSentiment := hasMixedSentimentOf outs
  let needsRefinement :=
    decide (lowestConfidence < mkRat 65 100) || hasCriticalUrgency || hasMixedSentiment
  let refinementReason : Option String :=
    if needsRefinement then
      if lowestConfidence < mkRat 65 100 then some "low_confidence"
      else if hasCriticalUrgency then some "critical_urgency"
      else if hasMixedSentiment then some "mixed_sentiment"
      else none
    else none
  pure { classifications := classifications,
         needsRefinement := needsRefinement,
         refinementReason := refinementReason }

/-! ### Summary window selector and composer (summary.ts) -/

/-- One theme row of `topThemes`. -/
structure ThemeCount where
  theme : String
  count : ℕ
deriving DecidableEq, Repr

/-- The `AggregatedMetrics` record from `summary.ts`. -/
structure AggregatedMetrics where
  totalCount : ℕ
  positivePercent : ℕ
  neutralPercent : ℕ
  negativePercent : ℕ
  topThemes : List ThemeCount
  criticalCount : ℕ
  highCount : ℕ
  topProducts : List String
deriving DecidableEq, Repr

/-- One of the `latestCriticalItems` rows. -/
structure CriticalItem where
  content : String
  source : String
  timestamp : String
deriving DecidableEq, Repr

/-- The `PrioritizedMetrics` record from `summary.ts`. -/
structure PrioritizedMetrics where
  recent7d : AggregatedMetrics
  recent30d : AggregatedMetrics
  allTime : AggregatedMetrics
  latestCriticalItems : List CriticalItem
deriving DecidableEq, Repr

/-- The narrative focus selected by the window cascade of
`generateExecutiveSummary`. -/
inductive SummaryFocus where
  | urgent7d
  | fallback30d
  | allTimeTrend
  | performance30d
deriving DecidableEq, Repr

/-- The ordered `if`/`else if` cascade at the top of
`generateExecutiveSummary`: `hasUrgent7d = criticalCount7d > 0`,
`hasImportan7d = highCount7d >= 5`, `hasCritical30d = criticalCount30d >= 5`,
checked in that order with the first match winning. -/
def selectFocus (metrics : PrioritizedMetrics) : SummaryFocus :=
  if metrics.recent7d.criticalCount > 0 then .urgent7d
  else if ¬ (metrics.recent7d.highCount ≥ 5) then .fallback30d
  else if ¬ (metrics.recent30d.criticalCount ≥ 5) then .allTimeTrend
  else .performance30d

/-- The `windowContext` string computed by the cascade (one branch per
`SummaryFocus` value). -/
def windowContext (metrics : PrioritizedMetrics) : String :=
  match selectFocus metrics with
  | .urgent7d =>
    "FOCUS: Urgent issues from the last 7 days (" ++
      toString metrics.recent7d.criticalCount ++ " critical items)."
  | .fallback30d => "FOCUS: Issues from the last 30 days (fallback due to low 7-day volume)."
  | .allTimeTrend =>
    "FOCUS: Long-term trends and issues from the past year (fallback due to low 30-day volume)."
  | .performance30d => "FOCUS: Recent 30-day performance trends."

/-- The block `metrics.latestCriticalItems.map(item => ...).join('\n')`: the critical
items block of the summary prompt (`item.content.substring(0, 100)` is a
character-list prefix). -/
def criticalItemsList (metrics : PrioritizedMetrics) : String :=
  String.intercalate "\n" (metrics.latestCriticalItems.map (fun item =>
    "- [" ++ item.source ++ "] " ++ String.mk (item.content.toList.take 100) ++
      "... (" ++ item.timestamp ++ ")"))

/-- The `summaryPrompt` template string of `generateExecutiveSummary`. -/
def buildSummaryPrompt (metrics : PrioritizedMetrics) : String :=
  "You are a product analyst. Based on aggregated customer feedback, write a concise 2-3 sentence executive summary for a product manager.\n    \n" ++
  windowContext metrics ++
  "\n\nLATEST CRITICAL FEEDBACK (Last 5 items):\n" ++
  criticalItemsList metrics ++
  "\n\n7-DAY METRICS:\n- Total: " ++ toString metrics.recent7d.totalCount ++
  "\n- Sentiment: " ++ toString metrics.recent7d.positivePercent ++ "% positive, " ++
  toString metrics.recent7d.negativePercent ++ "% negative" ++
  "\n- Critical Items: " ++ toString metrics.recent7d.criticalCount ++
  "\n- Top Themes: " ++
  String.intercalate ", " (metrics.recent7d.topThemes.map (fun t =>
    t.theme ++ " (" ++ toString t.count ++ ")")) ++
  "\n\n30-DAY METRICS:\n- Total: " ++ toString metrics.recent30d.totalCount ++
  "\n- Sentiment: " ++ toString metrics.recent30d.positivePercent ++ "% positive, " ++
  toString metrics.recent30d.negativePercent ++ "% negative" ++
  "\n- Critical Items: " ++ toString metrics.recent30d.criticalCount ++
  "\n\nALL-TIME PRODUCTS: " ++ String.intercalate ", " metrics.allTime.topProducts ++
  "\n\nProvide actionable insights focusing on the specified FOCUS area and the LATEST CRITICAL FEEDBACK provided above.\nMaximum 3 sentences. Plaintext only."

/-- The generative completion oracle `ai.run('@cf/meta/llama-3.1-8b-instruct',
...)`: the prompt maps to either a thrown error (its message) or a response
whose `.response` field may be absent (`none`) or any string. -/
abbrev CompleteFn := String → Except String (Option String)

/-- The function `generateExecutiveSummary(metrics, ai)` from `summary.ts`: a total
function into `String` — the `try`/`catch` converts a completion failure
into a fallback description, and a falsy `.response` into the placeholder
(`(response as any).response || 'Summary generation in progress...'`). -/
def generateExecutiveSummary (complete : CompleteFn) (metrics : PrioritizedMetrics) : String :=
  match complete (buildSummaryPrompt metrics) with
  | .ok response =>
    match response with
    | some s => if s = "" then "Summary generation in progress..." else s
    | none => "Summary generation in progress..."
  | .error e => "Unable to generate summary: " ++ e

/-! ### The urgency CASE expressions of the read and metrics paths (index.ts) -/

/-- SQL `urgency_confidence > 0.5` under three-valued logic: a `NULL`
confidence compares as not-true. -/
def sqlConfAboveHalf (conf : Option ℚ) : Bool :=
  match conf with
  | some c => mkRat 1 2 < c
  | none => false

/-- The `CASE WHEN c.urgency = 'critical' AND c.urgency_confidence > 0.5
THEN 'critical' WHEN c.urgency = 'critical' THEN 'high' ELSE c.urgency END`
expression of `getFeedback` (and `getFeedbackById`) in `index.ts`. -/
def getFeedbackUrgency (urgency : Option String) (conf : Option ℚ) : Option String :=
  if urgency = some "critical" ∧ sqlConfAboveHalf conf = true then some "critical"
  else if urgency = some "critical" then some "high"
  else urgency

/-- The identical `CASE` expression in the urgency-distribution query of
`getMetrics` in `index.ts`. -/
def getMetricsUrgency (urgency : Option String) (conf : Option ℚ) : Option String :=
  if urgency = some "critical" ∧ sqlConfAboveHalf conf = true then some "critical"
  else if urgency = some "critical" then some "high"
  else urgency

/-! ### Spec-side comparison predicates -/

/-- Written from the claim text of C4(c), for comparison with the source's
`mixedSentimentCheck`: the two largest score values of the list (the second
taken after erasing one occurrence of the first) differ by less than
`0.15`. -/
def specTopTwoGapSmall (scores : List ℚ) : Prop :=
  ∃ t0 t1,
    (t0 ∈ scores ∧ ∀ s ∈ scores, s ≤ t0) ∧
    (t1 ∈ scores.erase t0 ∧ ∀ s ∈ scores.erase t0, s ≤ t1) ∧
    |t0 - t1| < mkRat 15 100

/-- The anchor-set side condition used to read C4(b): for every urgency
anchor label, `label.startsWith('critical')` coincides with the persisted
first token being `critical`. It holds for every anchor set produced from
`LABEL_DEFINITIONS` (see `precompute_urgency_canonical`). -/
def urgencyLabelsCanonical (anchors : List CategoryEmbeddings) : Prop :=
  ∀ cd ∈ anchors, cd.category = "urgency" →
    ∀ le ∈ cd.embeddings,
      strStartsWith le.label "critical" = decide (extractLabelName le.label = "critical")

/-! ### Concrete inputs used by the closed witnesses and counterexamples -/

/-- A metrics record with the given 7-day critical, 7-day high and 30-day
critical counts and every other field zeroed. -/
def exampleMetrics (critical7d high7d critical30d : ℕ) : PrioritizedMetrics :=
  { recent7d := { totalCount := 0, positivePercent := 0, neutralPercent := 0,
                  negativePercent := 0, topThemes := [], criticalCount := critical7d,
                  highCount := high7d, topProducts := [] },
    recent30d := { totalCount := 0, positivePercent := 0, neutralPercent := 0,
                   negativePercent := 0, topThemes := [], criticalCount := critical30d,
                   highCount := 0, topProducts := [] },
    allTime := { totalCount := 0, positivePercent := 0, neutralPercent := 0,
                 negativePercent := 0, topThemes := [], criticalCount := 0,
                 highCount := 0, topProducts := [] },
    latestCriticalItems := [] }

/-- A 250-item job input, used to check the chunk-size table of the spec. -/
def items250 : List FeedbackItemIn :=
  (List.range 250).map (fun i => { id := i, content := "t" })

/-- Embedding oracle giving the anchor at position `i` of each request the
vector `[i]`. -/
def embedIndexed : EmbedFn := fun ts => .ok (ts.enum.map (fun p => [mkRat p.1 1]))

/-- Similarity oracle scoring the vector `[0]` (the first anchor of every
category, in particular the `critical ...` urgency anchor) at `0.3` and
everything else at `0.1`. -/
def simLowCritical : SimFn := fun _ b =>
  .ok (if b = [mkRat 0 1] then mkRat 3 10 else mkRat 1 10)

/-- Embedding oracle returning an all-empty vector per text, except that a
two-text request (the witness's item chunk) gets only one vector back. -/
def embedShort : EmbedFn := fun ts =>
  if ts.length = 2 then .ok [[]] else .ok (ts.map (fun _ => []))

/-- Embedding oracle returning one empty vector per text. -/
def embedConst : EmbedFn := fun ts => .ok (ts.map (fun _ => []))

/-- Embedding oracle that fails exactly on the urgency category's request
(the only category with four labels). -/
def embedUrgencyFails : EmbedFn := fun ts =>
  if ts.length = 4 then .error "AI call failed" else .ok (ts.map (fun _ => []))

/-- Similarity oracle scoring everything `0`. -/
def simZero : SimFn := fun _ _ => .ok 0

/-- The anchor set `precomputeLabelEmbeddings` produces under `embedConst`
or `embedShort`. -/
def anchorsConst : List CategoryEmbeddings :=
  LABEL_DEFINITIONS.map (fun d =>
    { category := d.category, embeddings := d.labels.map (fun l => { label := l, embedding := [] }) })

/-- Completion oracle that always fails. -/
def completeFails : CompleteFn := fun _ => .error "AI request timed out"

/-- The urgency-only anchor category used by the C4 and C6 witnesses. -/
def cdUrgency : CategoryEmbeddings :=
  { category := "urgency",
    embeddings := [
      { label := "critical urgent blocking production emergency immediate down", embedding := [] },
      { label := "high priority important impacting significant", embedding := [] }] }

/-- A two-item job input. -/
def itemsTwo : List FeedbackItemIn := [{ id := 1, content := "a" }, { id := 2, content := "b" }]

/-- A classification bundle whose polarity confidence is exactly `0` and
which has no urgency entry at all. -/
def resZero : BatchResult :=
  { id := 7,
    classifications := [("polarity",
      { category := "polarity", label := "positive", confidence := 0 })] }

/-- The value `classifyFeedback simZero [] [cdUrgency]` computes. -/
def fcUrgencyZero : FeedbackClassifications :=
  { classifications := [("urgency",
      { category := "urgency", label := "critical", confidence := 0 })],
    needsRefinement := true,
    refinementReason := some "low_confidence" }

/-- The property claim C4 asserts of one run of the single-item
classification path (stated over the run's per-category outcomes). -/
def refinementSpecStatement (sim : SimFn) (v : Vec) (anchors : List CategoryEmbeddings)
    (fc : FeedbackClassifications) : Prop :=
  ∃ outs, categoryOutcomes sim v anchors = .ok outs ∧
    ((fc.needsRefinement = true) ↔
      ((∃ o ∈ outs, o.best.2 < mkRat 65 100) ∨
       (∃ o ∈ outs, o.categoryData.category = "urgency" ∧
          extractLabelName o.best.1 = "critical") ∨
       (∃ o ∈ outs, o.categoryData.category = "polarity" ∧
          specTopTwoGapSmall (o.similarities.map (·.2))))) ∧
    ((∃ o ∈ outs, o.best.2 < mkRat 65 100) ↔ lowestConfidenceOf outs < mkRat 65 100) ∧
    (lowestConfidenceOf outs < mkRat 65 100 → fc.refinementReason = some "low_confidence") ∧
    (¬ lowestConfidenceOf outs < mkRat 65 100 → hasCriticalUrgencyOf outs = true →
      fc.refinementReason = some "critical_urgency") ∧
    (¬ lowestConfidenceOf outs < mkRat 65 100 → hasCriticalUrgencyOf outs = false →
      hasMixedSentimentOf outs = true → fc.refinementReason = some "mixed_sentiment") ∧
    (fc.needsRefinement = false → fc.refinementReason = none)

/-! ## Helper lemmas -/

theorem chunksOfFuel_congr {α : Type} (k : ℕ) (hk : 1 ≤ k) :
    ∀ (f1 : ℕ) (f2 : ℕ) (l : List α), l.length ≤ f1 → l.length ≤ f2 →
      chunksOfFuel k f1 l = chunksOfFuel k f2 l := by
  intro f1
  induction f1 with
  | zero =>
    intro f2 l h1 _
    have hl : l = [] := List.eq_nil_of_length_eq_zero (Nat.le_zero.mp h1)
    subst hl
    cases f2 <;> rfl
  | succ f1 ih =>
    intro f2 l h1 h2
    cases l with
    | nil => cases f2 <;> rfl
    | cons x xs =>
      cases f2 with
      | zero => simp at h2
      | succ f2 =>
        simp only [chunksOfFuel]
        congr 1
        apply ih
        · have : ((x :: xs).drop k).length = (x :: xs).length - k := List.length_drop k _
          omega
        · have : ((x :: xs).drop k).length = (x :: xs).length - k := List.length_drop k _
          omega

theorem chunksOf_nil {α : Type} (k : ℕ) : chunksOf k ([] : List α) = [] := rfl

theorem chunksOf_cons {α : Type} (k : ℕ) (hk : 1 ≤ k) (l : List α) (hl : l ≠ []) :
    chunksOf k l = l.take k :: chunksOf k (l.drop k) := by
  cases l with
  | nil => exact absurd rfl hl
  | cons x xs =>
    show chunksOfFuel k (xs.length + 1) (x :: xs) = _
    simp only [chunksOfFuel]
    congr 1
    apply chunksOfFuel_congr k hk
    · have hd : ((x :: xs).drop k).length = (x :: xs).length - k := List.length_drop k _
      have hc : (x :: xs).length = xs.length + 1 := by simp
      omega
    · exact le_refl _

theorem chunksOf_flatten {α : Type} (k : ℕ) (hk : 1 ≤ k) :
    ∀ (l : List α), (chunksOf k l).flatten = l := by
  have main : ∀ (fuel : ℕ) (l : List α), l.length ≤ fuel →
      (chunksOfFuel k fuel l).flatten = l := by
    intro fuel
    induction fuel with
    | zero =>
      intro l h1
      have hl : l = [] := List.eq_nil_of_length_eq_zero (Nat.le_zero.mp h1)
      subst hl; rfl
    | succ fuel ih =>
      intro l h1
      cases l with
      | nil => rfl
      | cons x xs =>
        simp only [chunksOfFuel, List.flatten_cons]
        rw [ih]
        · exact List.take_append_drop k (x :: xs)
        · have hd : ((x :: xs).drop k).length = (x :: xs).length - k := List.length_drop k _
          have hc : (x :: xs).length = xs.length + 1 := by simp
          have h2 : xs.length + 1 ≤ fuel + 1 := h1
          omega
  intro l
  exact main l.length l (le_refl _)

theorem chunksOf_mem_size {α : Type} (k : ℕ) (hk : 1 ≤ k) (l : List α) :
    ∀ c ∈ chunksOf k l, c ≠ [] ∧ c.length ≤ k := by
  have main : ∀ (fuel : ℕ) (l : List α), l.length ≤ fuel →
      ∀ c ∈ chunksOfFuel k fuel l, c ≠ [] ∧ c.length ≤ k := by
    intro fuel
    induction fuel with
    | zero =>
      intro l h1 c hc
      have hl : l = [] := List.eq_nil_of_length_eq_zero (Nat.le_zero.mp h1)
      subst hl; simp [chunksOfFuel] at hc
    | succ fuel ih =>
      intro l h1 c hc
      cases l with
      | nil => simp [chunksOfFuel] at hc
      | cons x xs =>
        simp only [chunksOfFuel, List.mem_cons] at hc
        rcases hc with hc | hc
        · subst hc
          constructor
          · cases k with
            | zero => omega
            | succ k => simp [List.take]
          · exact List.length_take_le k (x :: xs)
        · refine ih ((x :: xs).drop k) ?_ c hc
          have hd : ((x :: xs).drop k).length = (x :: xs).length - k := List.length_drop k _
          have hcl : (x :: xs).length = xs.length + 1 := by simp
          have h2 : xs.length + 1 ≤ fuel + 1 := h1
          omega
  exact main l.length l (le_refl _)

theorem chunksOf_full_sizes {α : Type} (k : ℕ) (hk : 1 ≤ k) (l : List α) :
    ∀ (i : ℕ) (c : List α), (chunksOf k l).get? i = some c →
      i + 1 < (chunksOf k l).length → c.length = k := by
  have main : ∀ (fuel : ℕ) (l : List α), l.length ≤ fuel →
      ∀ (i : ℕ) (c : List α), (chunksOfFuel k fuel l).get? i = some c →
        i + 1 < (chunksOfFuel k fuel l).length → c.length = k := by
    intro fuel
    induction fuel with
    | zero =>
      intro l h1 i c hc _
      have hl : l = [] := List.eq_nil_of_length_eq_zero (Nat.le_zero.mp h1)
      subst hl; simp [chunksOfFuel] at hc
    | succ fuel ih =>
      intro l h1 i c hc hlen
      cases l with
      | nil => simp [chunksOfFuel] at hc
      | cons x xs =>
        simp only [chunksOfFuel] at hc hlen
        cases i with
        | zero =>
          simp at hc
          subst hc
          have hrest : chunksOfFuel k fuel ((x :: xs).drop k) ≠ [] := by
            intro hnil
            rw [hnil] at hlen
            simp at hlen
          have hdrop : (x :: xs).drop k ≠ [] := by
            intro hnil
            cases fuel with
            | zero => rw [hnil] at hrest; exact hrest rfl
            | succ fuel => rw [hnil] at hrest; exact hrest rfl
          have hklt : k < (x :: xs).length := by
            by_contra hge
            exact hdrop (List.drop_eq_nil_of_le (by omega))
          have hcl : (x :: xs).length = xs.length + 1 := by simp
          simp [List.length_take]
          omega
        | succ i =>
          simp only [List.get?_cons_succ] at hc
          simp only [List.length_cons, Nat.add_lt_add_iff_right] at hlen
          refine ih ((x :: xs).drop k) ?_ i c hc hlen
          have hd : ((x :: xs).drop k).length = (x :: xs).length - k := List.length_drop k _
          have hcl : (x :: xs).length = xs.length + 1 := by simp
          have h2 : xs.length + 1 ≤ fuel + 1 := h1
          omega
  exact main l.length l (le_refl _)

theorem countP_add_countP_not {α : Type} (p : α → Bool) (l : List α) :
    l.countP p + l.countP (fun a => !p a) = l.length := by
  induction l with
  | nil => simp
  | cons x xs ih => by_cases h : p x <;> simp [List.countP_cons, h, ← ih] <;> omega

theorem mapE_ok_mem_left {α β : Type} {f : α → Except String β} :
    ∀ {l : List α} {ys : List β}, mapE f l = .ok ys → ∀ x ∈ l, ∃ y, f x = .ok y := by
  intro l
  induction l with
  | nil => intro ys _ x hx; simp at hx
  | cons a as ih =>
    intro ys h x hx
    simp only [mapE] at h
    cases hfa : f a with
    | error e => rw [hfa] at h; simp at h
    | ok b =>
      rw [hfa] at h
      cases hrest : mapE f as with
      | error e => rw [hrest] at h; simp at h
      | ok bs =>
        rcases List.mem_cons.mp hx with hx | hx
        · exact ⟨b, hx ▸ hfa⟩
        · exact ih hrest x hx

theorem mapE_ok_mem_right {α β : Type} {f : α → Except String β} :
    ∀ {l : List α} {ys : List β}, mapE f l = .ok ys → ∀ y ∈ ys, ∃ x ∈ l, f x = .ok y := by
  intro l
  induction l with
  | nil =>
    intro ys h y hy
    simp only [mapE] at h
    cases h
    simp at hy
  | cons a as ih =>
    intro ys h y hy
    simp only [mapE] at h
    cases hfa : f a with
    | error e => rw [hfa] at h; simp at h
    | ok b =>
      rw [hfa] at h
      cases hrest : mapE f as with
      | error e => rw [hrest] at h; simp at h
      | ok bs =>
        rw [hrest] at h
        cases h
        rcases List.mem_cons.mp hy with hy | hy
        · exact ⟨a, List.mem_cons_self a as, hy ▸ hfa⟩
        · obtain ⟨x, hx, hfx⟩ := ih hrest y hy
          exact ⟨x, List.mem_cons_of_mem a hx, hfx⟩

theorem mapE_error_of_failure {α β : Type} {f : α → Except String β} {l : List α}
    (h : ∃ x ∈ l, (f x).isOk = false) : ∃ e, mapE f l = .error e := by
  cases hm : mapE f l with
  | error e => exact ⟨e, rfl⟩
  | ok ys =>
    obtain ⟨x, hx, hfx⟩ := h
    obtain ⟨y, hy⟩ := mapE_ok_mem_left hm x hx
    rw [hy] at hfx
    simp [Except.isOk, Except.toBool] at hfx

theorem embedChunks_ok {embed : EmbedFn} {f : String → Vec}
    (hembed : ∀ ts, embed ts = .ok (ts.map f)) :
    ∀ chunks : List (List FeedbackItemIn),
      embedChunks embed chunks =
        .ok ((chunks.map (fun c => c.map (fun it => f it.content))).flatten) := by
  intro chunks
  induction chunks with
  | nil => rfl
  | cons c rest ih =>
    simp only [embedChunks, hembed, ih, List.map_cons, List.flatten_cons]
    rw [List.map_map]
    rfl

theorem classifyLoop_eq (sim : SimFn) (anchors : List CategoryEmbeddings) :
    ∀ ps : List (FeedbackItemIn × Option Vec),
      classifyLoop sim anchors ps =
        (ps.countP (itemSucceeds sim anchors),
         ps.countP (fun p => !(itemSucceeds sim anchors p)),
         ps.filterMap (resultOf sim anchors)) := by
  intro ps
  induction ps with
  | nil => rfl
  | cons p rest ih =>
    simp only [classifyLoop, ih]
    rcases p with ⟨item, ov⟩
    cases ov with
    | none =>
      simp [itemSucceeds, resultOf, List.countP_cons, List.filterMap_cons, Option.isSome]
    | some v =>
      cases hcl : classifyItem sim v anchors with
      | ok cls =>
        simp [itemSucceeds, resultOf, hcl, List.countP_cons, List.filterMap_cons, Option.isSome]
      | error e =>
        simp [itemSucceeds, resultOf, hcl, List.countP_cons, List.filterMap_cons, Option.isSome]

theorem bestMatchFold_spec :
    ∀ (rest : List (String × ℚ)) (first : String × ℚ),
      (rest.foldl (fun max curr => if curr.2 > max.2 then curr else max) first) ∈ first :: rest ∧
      (∀ x ∈ first :: rest,
        x.2 ≤ (rest.foldl (fun max curr => if curr.2 > max.2 then curr else max) first).2) ∧
      (first :: rest).find?
          (fun x => x.2 == (rest.foldl (fun max curr => if curr.2 > max.2 then curr else max) first).2)
        = some (rest.foldl (fun max curr => if curr.2 > max.2 then curr else max) first) := by
  intro rest
  induction rest with
  | nil =>
    intro first
    refine ⟨List.mem_singleton_self first, ?_, ?_⟩
    · intro x hx
      rcases List.mem_singleton.mp hx with rfl
      exact le_refl _
    · simp [List.find?]
  | cons x xs ih =>
    intro first
    by_cases hx : x.2 > first.2
    · have hstep : (if x.2 > first.2 then x else first) = x := if_pos hx
      have hfold :
          ((x :: xs).foldl (fun max curr => if curr.2 > max.2 then curr else max) first)
            = xs.foldl (fun max curr => if curr.2 > max.2 then curr else max) x := by
        simp [List.foldl_cons, hstep]
      obtain ⟨hmem, hle, hfind⟩ := ih x
      rw [hfold]
      set m := xs.foldl (fun max curr => if curr.2 > max.2 then curr else max) x with hm
      have hxle : x.2 ≤ m.2 := hle x (List.mem_cons_self x xs)
      refine ⟨?_, ?_, ?_⟩
      · exact List.mem_cons_of_mem first hmem
      · intro y hy
        rcases List.mem_cons.mp hy with rfl | h
        · exact le_of_lt (lt_of_lt_of_le hx hxle)
        · exact hle y h
      · have hfirstne : (first.2 == m.2) = false := by
          have hlt : first.2 < m.2 := lt_of_lt_of_le hx hxle
          simp only [beq_eq_false_iff_ne]
          exact ne_of_lt hlt
        rw [List.find?_cons_of_neg _ (by simp [hfirstne]), hfind]
    · have hstep : (if x.2 > first.2 then x else first) = first := if_neg hx
      have hfold :
          ((x :: xs).foldl (fun max curr => if curr.2 > max.2 then curr else max) first)
            = xs.foldl (fun max curr => if curr.2 > max.2 then curr else max) first := by
        simp [List.foldl_cons, hstep]
      obtain ⟨hmem, hle, hfind⟩ := ih first
      rw [hfold]
      set m := xs.foldl (fun max curr => if curr.2 > max.2 then curr else max) first with hm
      have hfe : first.2 ≤ m.2 := hle first (List.mem_cons_self first xs)
      have hxle : x.2 ≤ first.2 := le_of_not_lt hx
      refine ⟨?_, ?_, ?_⟩
      · rcases List.mem_cons.mp hmem with h | h
        · rw [h]; exact List.mem_cons_self first (x :: xs)
        · exact List.mem_cons_of_mem first (List.mem_cons_of_mem x h)
      · intro y hy
        rcases List.mem_cons.mp hy with rfl | h
        · exact hfe
        · rcases List.mem_cons.mp h with rfl | h2
          · exact le_trans hxle hfe
          · exact hle y (List.mem_cons_of_mem first h2)
      · by_cases hp : first.2 = m.2
        · have hffind : (first :: xs).find? (fun z => z.2 == m.2) = some first :=
            List.find?_cons_of_pos _ (by simp [beq_iff_eq, hp])
          have : some first = some m := by rw [← hffind, hfind]
          have hfm : first = m := Option.some.inj this
          rw [List.find?_cons_of_pos _ (by simp [beq_iff_eq, hp])]
          rw [hfm]
        · have hffalse : (first.2 == m.2) = false := by simp [beq_iff_eq, hp]
          have hxfalse : (x.2 == m.2) = false := by
            simp only [beq_eq_false_iff_ne]
            intro hxm
            exact hp (le_antisymm hfe (hxm ▸ hxle))
          have hxs : xs.find? (fun z => z.2 == m.2) = some m := by
            have := hfind
            rw [List.find?_cons_of_neg _ (by simp [hffalse])] at this
            exact this
          rw [List.find?_cons_of_neg _ (by simp [hffalse]),
              List.find?_cons_of_neg _ (by simp [hxfalse]), hxs]

/-! ## Claim theorems -/

/-- C3: for every `PrioritizedMetrics` input the summary window selector
evaluates the ordered cascade 7-day-critical, then 7-day-high-volume, then
30-day-critical, stopping at the first match, and the four table rows of the
spec evaluate as claimed. -/
theorem summary_window_cascade :
    (∀ m : PrioritizedMetrics,
      (selectFocus m = .urgent7d ↔ m.recent7d.criticalCount > 0) ∧
      (selectFocus m = .fallback30d ↔
        m.recent7d.criticalCount = 0 ∧ m.recent7d.highCount < 5) ∧
      (selectFocus m = .allTimeTrend ↔
        m.recent7d.criticalCount = 0 ∧ 5 ≤ m.recent7d.highCount ∧
          m.recent30d.criticalCount < 5) ∧
      (selectFocus m = .performance30d ↔
        m.recent7d.criticalCount = 0 ∧ 5 ≤ m.recent7d.highCount ∧
          5 ≤ m.recent30d.criticalCount)) ∧
    selectFocus (exampleMetrics 0 3 0) = .fallback30d ∧
    selectFocus (exampleMetrics 2 0 0) = .urgent7d ∧
    selectFocus (exampleMetrics 0 7 2) = .allTimeTrend ∧
    selectFocus (exampleMetrics 0 7 8) = .performance30d := by
  refine ⟨?_, by decide, by decide, by decide, by decide⟩
  intro m
  unfold selectFocus
  split_ifs with h1 h2 h3 <;> refine ⟨?_, ?_, ?_, ?_⟩ <;> simp_all <;> omega

theorem append_ne_empty_left (s t : String) (h : s ≠ "") : s ++ t ≠ "" := by
  intro he
  apply h
  have hd := congrArg String.data he
  rw [String.data_append] at hd
  have h1 : s.data = [] := (List.append_eq_nil.mp hd).1
  cases s with
  | mk data =>
    simp at h1
    rw [h1]

/-- C8: the summary composer is a total function into `String`; a failed
completion call yields the human-readable fallback string, a successful but
empty response yields the non-empty placeholder, and the result is never
the empty string. -/
theorem summary_never_throws (complete : CompleteFn) (metrics : PrioritizedMetrics) :
    (∀ e, complete (buildSummaryPrompt metrics) = .error e →
      generateExecutiveSummary complete metrics = "Unable to generate summary: " ++ e) ∧
    (complete (buildSummaryPrompt metrics) = .ok none →
      generateExecutiveSummary complete metrics = "Summary generation in progress...") ∧
    (complete (buildSummaryPrompt metrics) = .ok (some "") →
      generateExecutiveSummary complete metrics = "Summary generation in progress...") ∧
    (∀ s, s ≠ "" → complete (buildSummaryPrompt metrics) = .ok (some s) →
      generateExecutiveSummary complete metrics = s) ∧
    generateExecutiveSummary complete metrics ≠ "" := by
  refine ⟨?_, ?_, ?_, ?_, ?_⟩
  · intro e he; simp [generateExecutiveSummary, he]
  · intro he; simp [generateExecutiveSummary, he]
  · intro he; simp [generateExecutiveSummary, he]
  · intro r hr he; simp [generateExecutiveSummary, he, hr]
  · unfold generateExecutiveSummary
    cases hc : complete (buildSummaryPrompt metrics) with
    | error e => exact append_ne_empty_left _ e (by decide)
    | ok response =>
      cases response with
      | none => decide
      | some r =>
        by_cases hr : r = ""
        · simp [hr]
        · simp [hr]

/-- C8 witness: with an always-failing completion oracle the composer
returns the concrete fallback string. -/
theorem summary_never_throws_witness :
    generateExecutiveSummary completeFails (exampleMetrics 0 0 0) =
      "Unable to generate summary: AI request timed out" :=
  (summary_never_throws completeFails (exampleMetrics 0 0 0)).1 "AI request timed out" rfl

/-- C10: in both the bulk (`mkRow`) and single-item
(`saveClassificationsRow`) save paths, which coincide, a winning confidence
of exactly `0` is persisted as `NULL`, and an absent category key yields
`NULL` for both its label and confidence columns (total, no error). -/
theorem persistence_falsy_coercion (res : BatchResult) :
    (mkRow res = saveClassificationsRow res.id res.classifications) ∧
    (∀ r, res.classifications.lookup "polarity" = some r → r.confidence = 0 →
      (mkRow res).sentiment_confidence = none) ∧
    (res.classifications.lookup "polarity" = none →
      (mkRow res).sentiment = none ∧ (mkRow res).sentiment_confidence = none) ∧
    (∀ r, res.classifications.lookup "urgency" = some r → r.confidence = 0 →
      (mkRow res).urgency_confidence = none) ∧
    (res.classifications.lookup "urgency" = none →
      (mkRow res).urgency = none ∧ (mkRow res).urgency_confidence = none) ∧
    (∀ r, res.classifications.lookup "products" = some r → r.confidence = 0 →
      (mkRow res).product_confidence = none) ∧
    (res.classifications.lookup "products" = none →
      (mkRow res).product_detected = none ∧ (mkRow res).product_confidence = none) ∧
    (∀ r, res.classifications.lookup "feedbackType" = some r → r.confidence = 0 →
      (mkRow res).feedback_type_confidence = none) ∧
    (res.classifications.lookup "feedbackType" = none →
      (mkRow res).feedback_type = none ∧ (mkRow res).feedback_type_confidence = none) ∧
    (res.classifications.lookup "churnRisk" = none →
      (mkRow res).churn_risk = none) := by
  refine ⟨rfl, ?_, ?_, ?_, ?_, ?_, ?_, ?_, ?_, ?_⟩ <;>
    first
      | (intro r h h0; simp [mkRow, h, orNullNum, h0])
      | (intro h; simp [mkRow, h, orNullNum, orNullStr])

/-- C10 witness: a polarity result with confidence exactly `0` persists a
`NULL` sentiment confidence, and the absent urgency key persists `NULL`
label and confidence. -/
theorem persistence_falsy_coercion_witness :
    (mkRow resZero).sentiment_confidence = none ∧
    (mkRow resZero).urgency = none ∧ (mkRow resZero).urgency_confidence = none := by
  refine ⟨?_, ?_, ?_⟩
  · exact (persistence_falsy_coercion resZero).2.1
      { category := "polarity", label := "positive", confidence := 0 } (by decide) rfl
  · exact ((persistence_falsy_coercion resZero).2.2.2.2.1 (by decide)).1
  · exact ((persistence_falsy_coercion resZero).2.2.2.2.1 (by decide)).2

/-- C1 (amended): the urgency downgrade rule — report `critical` exactly
when the stored raw label is `critical` and the stored confidence is
strictly above `0.50`, and `high` otherwise (including at exactly `0.50`
and for a `NULL` confidence) — is applied identically in the read/query
path (`getFeedback`) and in metrics aggregation (`getMetrics`); the
classification write path, however, persists the raw label and confidence
unchanged, so the downgrade happens at read time, not at persistence. -/
theorem urgency_downgrade_read_paths :
    (∀ (u : Option String) (conf : Option ℚ),
      getFeedbackUrgency u conf = getMetricsUrgency u conf) ∧
    (∀ (u : Option String) (conf : Option ℚ),
      getFeedbackUrgency u conf =
        if u = some "critical" then
          (if sqlConfAboveHalf conf = true then some "critical" else some "high")
        else u) ∧
    (∀ conf : ℚ, sqlConfAboveHalf (some conf) = true ↔ mkRat 1 2 < conf) ∧
    (getFeedbackUrgency (some "critical") (some (mkRat 1 2)) = some "high") ∧
    (getFeedbackUrgency (some "critical") (some (mkRat 51 100)) = some "critical") ∧
    (getFeedbackUrgency (some "critical") none = some "high") ∧
    (∀ res : BatchResult,
      (mkRow res).urgency =
        orNullStr ((res.classifications.lookup "urgency").map (·.label)) ∧
      (mkRow res).urgency_confidence =
        orNullNum ((res.classifications.lookup "urgency").map (·.confidence))) := by
  refine ⟨fun u conf => rfl, ?_, ?_, by decide, by decide, by decide, fun res => ⟨rfl, rfl⟩⟩
  · intro u conf
    unfold getFeedbackUrgency
    by_cases hu : u = some "critical" <;> by_cases hc : sqlConfAboveHalf conf = true <;>
      simp [hu, hc]
  · intro conf
    simp [sqlConfAboveHalf]

set_option maxRecDepth 10000 in
/-- C1 counterexample: running the bulk classification write path on an
item whose raw urgency winner is `critical` with confidence `0.3 ≤ 0.50`
persists the row with `urgency = 'critical'` — the raw low-confidence
`critical` IS surfaced to persistence, refuting the claim that the
downgrade is applied in the write path. -/
theorem c1_raw_critical_persisted :
    (batchClassifyFeedback embedIndexed simLowCritical [{ id := 1, content := "down" }]).map
        (fun out => out.saveBatches.flatten.map (fun r => (r.urgency, r.urgency_confidence)))
      = .ok [(some "critical", some (mkRat 3 10))] ∧
    mkRat 3 10 ≤ mkRat 1 2 := by
  exact ⟨by decide, by decide⟩

set_option maxRecDepth 40000 in
/-- C5: the embedding batcher splits the input into consecutive chunks of
size 100 (the last possibly smaller, none empty, all earlier ones exactly
100), issues one call per chunk and reassembles the responses in input
order, so that with an order-preserving one-vector-per-text oracle the
i-th output vector is the oracle's vector for the i-th item's content; a
250-item input produces call sizes 100, 100, 50. -/
theorem embedding_batcher_spec (embed : EmbedFn) (f : String → Vec)
    (items : List FeedbackItemIn) (hembed : ∀ ts, embed ts = .ok (ts.map f)) :
    itemEmbeddings embed items = .ok (items.map (fun it => f it.content)) ∧
    (chunksOf 100 items).flatten = items ∧
    (∀ c ∈ chunksOf 100 items, c ≠ [] ∧ c.length ≤ 100) ∧
    (∀ (i : ℕ) (c : List FeedbackItemIn), (chunksOf 100 items).get? i = some c →
      i + 1 < (chunksOf 100 items).length → c.length = 100) ∧
    (chunksOf 100 items250).map List.length = [100, 100, 50] ∧
    (∀ (i : ℕ) (hi : i < items.length),
      (items.map (fun it => f it.content)).get? i = some (f (items.get ⟨i, hi⟩).content)) := by
  refine ⟨?_, chunksOf_flatten 100 (by norm_num) items,
          chunksOf_mem_size 100 (by norm_num) items,
          chunksOf_full_sizes 100 (by norm_num) items, by decide, ?_⟩
  · rw [itemEmbeddings, embedChunks_ok hembed]
    congr 1
    rw [← List.map_flatten, chunksOf_flatten 100 (by norm_num)]
  · intro i hi
    rw [List.get?_map, List.get?_eq_get hi]
    rfl

/-- C5 witness: the batcher applied to a singleton input under the constant
oracle, plus the concrete 250-item chunk-size table. -/
theorem embedding_batcher_spec_witness :
    itemEmbeddings embedConst [{ id := 1, content := "a" }] = .ok [[]] ∧
    (chunksOf 100 items250).map List.length = [100, 100, 50] :=
  ⟨(embedding_batcher_spec embedConst (fun _ => []) [{ id := 1, content := "a" }]
      (fun _ => rfl)).1,
   (embedding_batcher_spec embedConst (fun _ => []) [{ id := 1, content := "a" }]
      (fun _ => rfl)).2.2.2.2.1⟩

theorem foldl_add_sq (l : List ℝ) : ∀ c : ℝ,
    l.foldl (fun s a => s + a * a) c = c + (l.map (fun a => a * a)).sum := by
  induction l with
  | nil => intro c; simp
  | cons x xs ih =>
    intro c
    simp only [List.foldl_cons, List.map_cons, List.sum_cons]
    rw [ih]
    ring

theorem sumSquares_eq (l : List ℝ) : sumSquares l = (l.map (fun a => a * a)).sum := by
  unfold sumSquares
  rw [foldl_add_sq]
  simp

theorem sum_sq_nonneg (l : List ℝ) : 0 ≤ (l.map (fun a => a * a)).sum := by
  apply List.sum_nonneg
  intro x hx
  obtain ⟨a, _, rfl⟩ := List.mem_map.mp hx
  exact mul_self_nonneg a

theorem sum_sq_eq_zero_iff (l : List ℝ) :
    (l.map (fun a => a * a)).sum = 0 ↔ ∀ x ∈ l, x = 0 := by
  induction l with
  | nil => simp
  | cons x xs ih =>
    simp only [List.map_cons, List.sum_cons, List.mem_cons]
    rw [add_eq_zero_iff' (mul_self_nonneg x) (sum_sq_nonneg xs), mul_self_eq_zero, ih]
    constructor
    · rintro ⟨h1, h2⟩ y (rfl | hy)
      · exact h1
      · exact h2 y hy
    · intro h
      exact ⟨h x (Or.inl rfl), fun y hy => h y (Or.inr hy)⟩

theorem magnitude_zero_iff (v : List ℝ) : magnitude v = 0 ↔ ∀ x ∈ v, x = 0 := by
  unfold magnitude
  rw [sumSquares_eq, Real.sqrt_eq_zero (sum_sq_nonneg v), sum_sq_eq_zero_iff]

/-- C2: `cosineSimilarity` fails with the dimension-mismatch error exactly
on unequal lengths; on equal lengths it returns exactly `0` (an `ok`
value — no `NaN`, no division failure) when either magnitude is zero, and
otherwise the dot product divided by the product of magnitudes; a magnitude
is zero exactly for the zero vector. -/
theorem cosineSimilarity_spec (a b : List ℝ) :
    (a.length ≠ b.length → cosineSimilarity a b = .error .dimensionMismatch) ∧
    (a.length = b.length → (magnitude a = 0 ∨ magnitude b = 0) →
      cosineSimilarity a b = .ok 0) ∧
    (a.length = b.length → magnitude a ≠ 0 → magnitude b ≠ 0 →
      cosineSimilarity a b = .ok (dotProduct a b / (magnitude a * magnitude b))) ∧
    (magnitude a = 0 ↔ ∀ x ∈ a, x = 0) := by
  refine ⟨?_, ?_, ?_, magnitude_zero_iff a⟩
  · intro h
    unfold cosineSimilarity
    rw [if_pos h]
  · intro hlen hz
    unfold cosineSimilarity
    rw [if_neg (by simp [hlen])]
    simp only []
    rw [if_pos hz]
  · intro hlen ha hb
    unfold cosineSimilarity
    rw [if_neg (by simp [hlen])]
    simp only []
    rw [if_neg (by simp [ha, hb])]

/-- C2 witness: a zero vector against a nonzero vector of equal length
yields exactly `ok 0`, and a genuine length mismatch yields the
dimension-mismatch error. -/
theorem cosineSimilarity_spec_witness :
    cosineSimilarity [(0 : ℝ)] [1] = .ok 0 ∧
    cosineSimilarity [(0 : ℝ), 0] [1] = .error .dimensionMismatch := by
  constructor
  · exact (cosineSimilarity_spec [0] [1]).2.1 rfl
      (Or.inl ((cosineSimilarity_spec [0] [1]).2.2.2.mpr (by intro x hx; simpa using hx)))
  · exact (cosineSimilarity_spec [0, 0] [1]).1 (by simp)

theorem bestMatch_ok_spec {sims : List (String × ℚ)} {m : String × ℚ}
    (h : bestMatch sims = .ok m) :
    m ∈ sims ∧ (∀ x ∈ sims, x.2 ≤ m.2) ∧
    sims.find? (fun x => x.2 == m.2) = some m := by
  cases sims with
  | nil => exact absurd h (by simp [bestMatch])
  | cons first rest =>
    have hm : m = rest.foldl (fun max curr => if curr.2 > max.2 then curr else max) first := by
      have := h
      simp only [bestMatch] at this
      exact (Except.ok.inj this).symm
    subst hm
    exact bestMatchFold_spec rest first

/-- C6: within one category the classifier selects the anchor whose score
is maximal, with the first anchor attaining the maximum winning on ties
(the `find?` clause: the winner is the first entry carrying the maximal
score), never failing on a nonempty anchor set; the stored label is the
first whitespace-delimited token of the winning anchor's label text
(`extractLabelName`) and the stored confidence is the winning score. -/
theorem best_anchor_selection (sim : SimFn) (v : Vec) (cd : CategoryEmbeddings)
    (first : String × ℚ) (rest : List (String × ℚ))
    (hsims : computeSimilarities sim v cd.embeddings = .ok (first :: rest)) :
    ∃ m, bestMatch (first :: rest) = .ok m ∧
      classifyCategory sim v cd =
        .ok { category := cd.category, label := extractLabelName m.1, confidence := m.2 } ∧
      m ∈ first :: rest ∧
      (∀ x ∈ first :: rest, x.2 ≤ m.2) ∧
      (first :: rest).find? (fun x => x.2 == m.2) = some m := by
  obtain ⟨hmem, hle, hfind⟩ :=
    bestMatchFold_spec rest first
  refine ⟨_, rfl, ?_, hmem, hle, hfind⟩
  unfold classifyCategory
  rw [hsims]
  rfl

/-- C6 witness: a two-anchor urgency category with tied zero scores — the
first anchor wins the tie, its first token `critical` is the persisted
label, and the selection does not fail. -/
theorem best_anchor_selection_witness :
    ∃ m, bestMatch [("critical urgent blocking production emergency immediate down", (0 : ℚ)),
                    ("high priority important impacting significant", 0)] = .ok m ∧
      classifyCategory simZero [] cdUrgency =
        .ok { category := cdUrgency.category, label := extractLabelName m.1,
              confidence := m.2 } ∧
      m ∈ [("critical urgent blocking production emergency immediate down", (0 : ℚ)),
           ("high priority important impacting significant", 0)] ∧
      (∀ x ∈ [("critical urgent blocking production emergency immediate down", (0 : ℚ)),
              ("high priority important impacting significant", 0)], x.2 ≤ m.2) ∧
      [("critical urgent blocking production emergency immediate down", (0 : ℚ)),
       ("high priority important impacting significant", 0)].find? (fun x => x.2 == m.2)
        = some m :=
  best_anchor_selection simZero [] cdUrgency
    ("critical urgent blocking production emergency immediate down", 0)
    [("high priority important impacting significant", 0)] (by decide)

theorem bind_error_eq {α β : Type} (e : String) (f : α → Except String β) :
    (Except.error e >>= f) = Except.error e := rfl

theorem pure_eq_ok {α : Type} (a : α) : (pure a : Except String α) = Except.ok a := rfl

theorem bind_ok_eq {α β : Type} (a : α) (f : α → Except String β) :
    (Except.ok a >>= f) = f a := rfl

/-- C7: if the embedding call for any category of `LABEL_DEFINITIONS` fails
during anchor precomputation, the error propagates out of
`precomputeLabelEmbeddings` and `batchClassifyFeedback` aborts with that
same error — in this pure model the job therefore produces no counts and
no persisted rows. -/
theorem anchor_failure_aborts_job (embed : EmbedFn) (sim : SimFn)
    (items : List FeedbackItemIn)
    (h : ∃ d ∈ LABEL_DEFINITIONS, (embed d.labels).isOk = false) :
    ∃ e, precomputeLabelEmbeddings embed = .error e ∧
      batchClassifyFeedback embed sim items = .error e := by
  cases hp : precomputeLabelEmbeddings embed with
  | error e =>
    refine ⟨e, rfl, ?_⟩
    unfold batchClassifyFeedback
    rw [hp]
    rfl
  | ok anchors =>
    exfalso
    obtain ⟨d, hd, hiso⟩ := h
    have hp2 : mapE (fun labelDef => do
        let data ← embed labelDef.labels
        let embeddings ← bindVectors labelDef.labels data
        pure { category := labelDef.category, embeddings := embeddings })
        LABEL_DEFINITIONS = .ok anchors := hp
    obtain ⟨y, hy⟩ := mapE_ok_mem_left hp2 d hd
    cases he : embed d.labels with
    | ok data => rw [he] at hiso; simp [Except.isOk, Except.toBool] at hiso
    | error e =>
      rw [he] at hy
      rw [bind_error_eq] at hy
      exact absurd hy (by simp)

/-- C7 witness: an oracle failing exactly on the urgency category's anchor
request aborts both precomputation and the whole job with that error. -/
theorem anchor_failure_aborts_job_witness :
    ∃ e, precomputeLabelEmbeddings embedUrgencyFails = .error e ∧
      batchClassifyFeedback embedUrgencyFails simZero [] = .error e :=
  anchor_failure_aborts_job embedUrgencyFails simZero [] (by decide)

theorem filterMap_resultOf_ids (sim : SimFn) (anchors : List CategoryEmbeddings) :
    ∀ ps : List (FeedbackItemIn × Option Vec),
      (ps.filterMap (resultOf sim anchors)).map (·.id) =
        (ps.filter (itemSucceeds sim anchors)).map (·.1.id) := by
  intro ps
  induction ps with
  | nil => rfl
  | cons p rest ih =>
    cases hr : resultOf sim anchors p with
    | none =>
      have hs : itemSucceeds sim anchors p = false := by simp [itemSucceeds, hr]
      simp [List.filterMap_cons, List.filter_cons, hr, hs, ih]
    | some br =>
      have hs : itemSucceeds sim anchors p = true := by simp [itemSucceeds, hr]
      have hid : br.id = p.1.id := by
        cases hpv : p.2 with
        | none =>
          have hnone : resultOf sim anchors p = none := by simp [resultOf, hpv]
          rw [hnone] at hr
          exact absurd hr (by simp)
        | some v =>
          cases hcl : classifyItem sim v anchors with
          | ok cls =>
            have hsome : resultOf sim anchors p =
                some { id := p.1.id, classifications := cls } := by
              simp [resultOf, hpv, hcl]
            rw [hsome] at hr
            injection hr with hbr
            rw [← hbr]
          | error e =>
            have hnone : resultOf sim anchors p = none := by simp [resultOf, hpv, hcl]
            rw [hnone] at hr
            exact absurd hr (by simp)
      simp [List.filterMap_cons, List.filter_cons, hr, hs, ih, hid]

/-- C9: when anchor precomputation and the chunked item embedding both
succeed, the bulk job returns counts with `classified` the number of pairs
that classify, `failed` its complement, summing to the input length; the
persisted row ids are exactly the ids of the successfully classified pairs
in input order, and (for the contract's unique ids) an item whose
positional vector is missing is counted failed and has no persisted row. -/
theorem batch_counts_partition (embed : EmbedFn) (sim : SimFn)
    (items : List FeedbackItemIn) (anchors : List CategoryEmbeddings) (vecs : List Vec)
    (h1 : precomputeLabelEmbeddings embed = .ok anchors)
    (h2 : itemEmbeddings embed items = .ok vecs) :
    ∃ out, batchClassifyFeedback embed sim items = .ok out ∧
      batchCountsSpec sim anchors items vecs out := by
  have hloop := classifyLoop_eq sim anchors (pairsOf items vecs)
  have hbatch : batchClassifyFeedback embed sim items =
      .ok { classified := (classifyLoop sim anchors (pairsOf items vecs)).1,
            failed := (classifyLoop sim anchors (pairsOf items vecs)).2.1,
            saveBatches :=
              (chunksOf 50 (classifyLoop sim anchors (pairsOf items vecs)).2.2).map
                (fun chunk => chunk.map mkRow) } := by
    unfold batchClassifyFeedback
    rw [h1, bind_ok_eq, h2, bind_ok_eq]
    rfl
  have hlen : (pairsOf items vecs).length = items.length := by
    simp [pairsOf, List.enum_length]
  have hrows :
      (((chunksOf 50 (classifyLoop sim anchors (pairsOf items vecs)).2.2).map
          (fun chunk => chunk.map mkRow)).flatten).map (·.feedback_id) =
        ((pairsOf items vecs).filter (itemSucceeds sim anchors)).map (·.1.id) := by
    rw [← List.map_flatten mkRow, chunksOf_flatten 50 (by norm_num), List.map_map]
    rw [hloop]
    exact filterMap_resultOf_ids sim anchors (pairsOf items vecs)
  refine ⟨_, hbatch, ?_, ?_, ?_, ?_, ?_⟩
  · show (classifyLoop sim anchors (pairsOf items vecs)).1 = _
    rw [hloop]
  · show (classifyLoop sim anchors (pairsOf items vecs)).2.1 = _
    rw [hloop]
  · show (classifyLoop sim anchors (pairsOf items vecs)).1 +
      (classifyLoop sim anchors (pairsOf items vecs)).2.1 = items.length
    rw [hloop]
    show (pairsOf items vecs).countP _ + (pairsOf items vecs).countP _ = _
    rw [countP_add_countP_not, hlen]
  · exact hrows
  · intro hnodup i hi hnone hmem
    rw [hrows] at hmem
    obtain ⟨p, hpmem, hpid⟩ := List.mem_map.mp hmem
    obtain ⟨hp, hsucc⟩ := List.mem_filter.mp hpmem
    obtain ⟨q, hq, hqp⟩ := List.mem_map.mp hp
    obtain ⟨j, it⟩ := q
    obtain ⟨hjlt, hjval⟩ := List.mem_enum hq
    have hvj : vecs.get? j ≠ none := by
      intro hv
      rw [← hqp] at hsucc
      simp only [itemSucceeds, resultOf, hv] at hsucc
      exact absurd hsucc (by simp)
    have hp1 : p.1 = it := by rw [← hqp]
    have hideq : (items.get ⟨j, hjlt⟩).id = (items.get ⟨i, hi⟩).id := by
      rw [List.get_eq_getElem, ← hjval]
      rw [hp1] at hpid
      exact hpid
    have hji : j = i := by
      have hinj := List.nodup_iff_injective_get.mp hnodup
      have hjlt2 : j < (items.map (·.id)).length := by simpa using hjlt
      have hilt2 : i < (items.map (·.id)).length := by simpa using hi
      have hgets : (items.map (·.id)).get ⟨j, hjlt2⟩ = (items.map (·.id)).get ⟨i, hilt2⟩ := by
        rw [List.get_map, List.get_map]
        exact hideq
      have hfin := hinj hgets
      exact congrArg Fin.val hfin
    rw [hji] at hvj
    exact hvj hnone

set_option maxRecDepth 10000 in
/-- C9 witness: a two-item job whose chunk response is one vector short —
the first item is classified, the second (missing its vector) is counted
failed and produces no row. -/
theorem batch_counts_partition_witness :
    ∃ out, batchClassifyFeedback embedShort simZero itemsTwo = .ok out ∧
      batchCountsSpec simZero anchorsConst itemsTwo [[]] out :=
  batch_counts_partition embedShort simZero itemsTwo anchorsConst [[]]
    (by decide) (by decide)

theorem jsAbs_eq_abs (q : ℚ) : jsAbs q = |q| := by
  unfold jsAbs
  by_cases h : q < 0
  · rw [if_pos h, abs_of_neg h]
  · rw [if_neg h, abs_of_nonneg (le_of_not_lt h)]

theorem lowest_fold_lt (outs : List CategoryOutcome) (t : ℚ) : ∀ init : ℚ,
    (outs.foldl (fun lowest o => if o.best.2 < lowest then o.best.2 else lowest) init) < t ↔
      init < t ∨ ∃ o ∈ outs, o.best.2 < t := by
  induction outs with
  | nil => intro init; simp
  | cons o os ih =>
    intro init
    simp only [List.foldl_cons]
    rw [ih]
    by_cases h : o.best.2 < init
    · rw [if_pos h]
      constructor
      · rintro (h2 | h2)
        · exact Or.inr ⟨o, List.mem_cons_self o os, h2⟩
        · obtain ⟨o2, ho2, h3⟩ := h2
          exact Or.inr ⟨o2, List.mem_cons_of_mem o ho2, h3⟩
      · rintro (h2 | ⟨o2, ho2, h3⟩)
        · exact Or.inl (lt_trans h h2)
        · rcases List.mem_cons.mp ho2 with rfl | ho3
          · exact Or.inl h3
          · exact Or.inr ⟨o2, ho3, h3⟩
    · rw [if_neg h]
      constructor
      · rintro (h2 | ⟨o2, ho2, h3⟩)
        · exact Or.inl h2
        · exact Or.inr ⟨o2, List.mem_cons_of_mem o ho2, h3⟩
      · rintro (h2 | ⟨o2, ho2, h3⟩)
        · exact Or.inl h2
        · rcases List.mem_cons.mp ho2 with rfl | ho3
          · exact Or.inl (lt_of_le_of_lt (le_of_not_lt h) h3)
          · exact Or.inr ⟨o2, ho3, h3⟩

theorem map_ok_eq {α β : Type} (f : α → β) (a : α) :
    Except.map f (Except.ok a : Except String α) = .ok (f a) := rfl

theorem map_error_eq {α β : Type} (f : α → β) (e : String) :
    Except.map f (Except.error e : Except String α) = .error e := rfl

theorem computeSimilarities_labels {sim : SimFn} {v : Vec} :
    ∀ {embeds : List LabelEmbedding} {sims : List (String × ℚ)},
      computeSimilarities sim v embeds = .ok sims →
        sims.map (·.1) = embeds.map (·.label) := by
  intro embeds
  induction embeds with
  | nil =>
    intro sims h
    simp only [computeSimilarities, mapE] at h
    cases h
    rfl
  | cons le rest ih =>
    intro sims h
    simp only [computeSimilarities, mapE] at h
    cases hs : sim v le.embedding with
    | error e => rw [hs, map_error_eq] at h; exact absurd h (by simp)
    | ok sc =>
      rw [hs, map_ok_eq] at h
      cases hrest : mapE
          (fun le => Except.map (fun s => (le.label, s)) (sim v le.embedding)) rest with
      | error e => rw [hrest] at h; exact absurd h (by simp)
      | ok ys =>
        rw [hrest] at h
        cases h
        have ihys : ys.map (·.1) = rest.map (·.label) := ih hrest
        simp [ihys]

theorem exceptBind_ok {α β : Type} {x : Except String α} {f : α → Except String β} {y : β}
    (h : x >>= f = .ok y) : ∃ a, x = .ok a ∧ f a = .ok y := by
  cases x with
  | error e =>
    rw [bind_error_eq] at h
    exact absurd h (by simp)
  | ok a =>
    rw [bind_ok_eq] at h
    exact ⟨a, rfl, h⟩

theorem categoryOutcomes_mem {sim : SimFn} {v : Vec} {anchors : List CategoryEmbeddings}
    {outs : List CategoryOutcome} (h : categoryOutcomes sim v anchors = .ok outs) :
    ∀ o ∈ outs, o.categoryData ∈ anchors ∧
      computeSimilarities sim v o.categoryData.embeddings = .ok o.similarities ∧
      bestMatch o.similarities = .ok o.best := by
  intro o ho
  obtain ⟨cd, hcd, hact⟩ := mapE_ok_mem_right h o ho
  obtain ⟨sims, hsims, hact2⟩ := exceptBind_ok hact
  obtain ⟨best, hbest, hact3⟩ := exceptBind_ok hact2
  have ho2 : ({ categoryData := cd, similarities := sims, best := best } :
      CategoryOutcome) = o := by
    have h3 := hact3
    rw [pure_eq_ok] at h3
    exact Except.ok.inj h3
  rw [← ho2]
  exact ⟨hcd, hsims, hbest⟩

theorem mapE_bindAction_labels {data : List Vec} :
    ∀ {ps : List (ℕ × String)} {embeddings : List LabelEmbedding},
      mapE (fun p =>
        match data.get? p.1 with
        | some v => .ok { label := p.2, embedding := v }
        | none => .error "TypeError: Array.from(undefined)") ps = .ok embeddings →
      embeddings.map (·.label) = ps.map (·.2) := by
  intro ps
  induction ps with
  | nil =>
    intro embeddings h
    simp only [mapE] at h
    cases h
    rfl
  | cons p rest ih =>
    intro embeddings h
    simp only [mapE] at h
    cases hv : data.get? p.1 with
    | none => rw [hv] at h; exact absurd h (by simp)
    | some v =>
      rw [hv] at h
      cases hrest : mapE (fun p =>
          match data.get? p.1 with
          | some v => Except.ok ({ label := p.2, embedding := v } : LabelEmbedding)
          | none => Except.error "TypeError: Array.from(undefined)") rest with
      | error e => rw [hrest] at h; exact absurd h (by simp)
      | ok ys =>
        rw [hrest] at h
        cases h
        have ihys : ys.map (·.label) = rest.map (·.2) := ih hrest
        simp [ihys]

theorem bindVectors_labels {labels : List String} {data : List Vec}
    {embeddings : List LabelEmbedding} (h : bindVectors labels data = .ok embeddings) :
    embeddings.map (·.label) = labels := by
  have h2 := mapE_bindAction_labels h
  rw [h2]
  exact List.enum_map_snd labels

theorem precompute_ok_shape {embed : EmbedFn} {anchors : List CategoryEmbeddings}
    (h : precomputeLabelEmbeddings embed = .ok anchors) :
    ∀ cd ∈ anchors, ∃ d ∈ LABEL_DEFINITIONS,
      cd.category = d.category ∧ cd.embeddings.map (·.label) = d.labels := by
  intro cd hcd
  obtain ⟨d, hd, hact⟩ := mapE_ok_mem_right h cd hcd
  obtain ⟨data, hdata, hact2⟩ := exceptBind_ok hact
  obtain ⟨embeddings, hemb, hact3⟩ := exceptBind_ok hact2
  rw [pure_eq_ok] at hact3
  have hcd2 := Except.ok.inj hact3
  rw [← hcd2]
  exact ⟨d, hd, rfl, bindVectors_labels hemb⟩

theorem precompute_urgency_canonical {embed : EmbedFn} {anchors : List CategoryEmbeddings}
    (h : precomputeLabelEmbeddings embed = .ok anchors) :
    urgencyLabelsCanonical anchors := by
  intro cd hcd hcat le hle
  obtain ⟨d, hd, hcat2, hlabels⟩ := precompute_ok_shape h cd hcd
  have hmem : le.label ∈ d.labels := by
    rw [← hlabels]
    exact List.mem_map_of_mem _ hle
  have hdu : d.category = "urgency" := by rw [← hcat2, hcat]
  have hdcases : d ∈ LABEL_DEFINITIONS := hd
  simp only [LABEL_DEFINITIONS, List.mem_cons, List.not_mem_nil, or_false] at hdcases
  rcases hdcases with rfl | rfl | rfl | rfl | rfl <;>
    first
      | (exact absurd hdu (by decide))
      | (simp only [List.mem_cons, List.not_mem_nil, or_false] at hmem
         rcases hmem with h1 | h1 | h1 | h1 <;> (rw [h1]; decide))

theorem hasCritical_iff {sim : SimFn} {v : Vec} {anchors : List CategoryEmbeddings}
    {outs : List CategoryOutcome} (hcanon : urgencyLabelsCanonical anchors)
    (h : categoryOutcomes sim v anchors = .ok outs) :
    hasCriticalUrgencyOf outs = true ↔
      ∃ o ∈ outs, o.categoryData.category = "urgency" ∧
        extractLabelName o.best.1 = "critical" := by
  have hbridge : ∀ o ∈ outs, o.categoryData.category = "urgency" →
      strStartsWith o.best.1 "critical" = decide (extractLabelName o.best.1 = "critical") := by
    intro o ho hcat
    obtain ⟨hmem_anchor, hsims, hbest⟩ := categoryOutcomes_mem h o ho
    have hlabels := computeSimilarities_labels hsims
    have hbm := bestMatch_ok_spec hbest
    have hbl : o.best.1 ∈ o.similarities.map (·.1) := List.mem_map_of_mem _ hbm.1
    rw [hlabels] at hbl
    obtain ⟨le, hle, hlab⟩ := List.mem_map.mp hbl
    have := hcanon o.categoryData hmem_anchor hcat le hle
    rw [hlab] at this
    exact this
  unfold hasCriticalUrgencyOf
  rw [List.any_eq_true]
  constructor
  · rintro ⟨o, ho, hcond⟩
    rw [Bool.and_eq_true, beq_iff_eq] at hcond
    obtain ⟨hcat, hstart⟩ := hcond
    rw [hbridge o ho hcat] at hstart
    exact ⟨o, ho, hcat, of_decide_eq_true hstart⟩
  · rintro ⟨o, ho, hcat, hext⟩
    refine ⟨o, ho, ?_⟩
    rw [Bool.and_eq_true, beq_iff_eq]
    refine ⟨hcat, ?_⟩
    rw [hbridge o ho hcat]
    exact decide_eq_true hext

theorem mixedSentimentCheck_iff (sims : List (String × ℚ)) :
    mixedSentimentCheck sims = true ↔ specTopTwoGapSmall (sims.map (·.2)) := by
  have hperm : (sortedScoresDesc sims).Perm (sims.map (·.2)) := by
    unfold sortedScoresDesc
    exact List.perm_insertionSort _ _
  have hsort : List.Sorted (· ≥ ·) (sortedScoresDesc sims) := by
    unfold sortedScoresDesc
    exact List.sorted_insertionSort _ _
  cases hS : sortedScoresDesc sims with
  | nil =>
    rw [hS] at hperm
    have hnil : sims.map (·.2) = [] := hperm.symm.eq_nil
    have hval : mixedSentimentCheck sims = false := by
      unfold mixedSentimentCheck
      rw [hS]
    rw [hval]
    unfold specTopTwoGapSmall
    rw [hnil]
    simp
  | cons t0 tail =>
    cases tail with
    | nil =>
      rw [hS] at hperm
      have hlen : (sims.map (·.2)).length = 1 := by rw [← hperm.length_eq]; rfl
      have hval : mixedSentimentCheck sims = false := by
        unfold mixedSentimentCheck
        rw [hS]
      rw [hval]
      unfold specTopTwoGapSmall
      constructor
      · intro h; exact absurd h (by simp)
      · rintro ⟨u0, u1, ⟨hu0mem, _⟩, ⟨hu1mem, _⟩, _⟩
        have h0 : ((sims.map (·.2)).erase u0).length = 0 := by
          rw [List.length_erase_of_mem hu0mem, hlen]
        rw [List.length_eq_zero] at h0
        rw [h0] at hu1mem
        exact absurd hu1mem (by simp)
    | cons t1 rest =>
      rw [hS] at hperm hsort
      have hval : mixedSentimentCheck sims = decide (jsAbs (t0 - t1) < mkRat 15 100) := by
        unfold mixedSentimentCheck
        rw [hS]
      have ht0mem : t0 ∈ sims.map (·.2) :=
        hperm.mem_iff.mp (List.mem_cons_self _ _)
      have ht0max : ∀ q ∈ sims.map (·.2), q ≤ t0 := by
        intro q hq
        have hq2 : q ∈ t0 :: t1 :: rest := hperm.mem_iff.mpr hq
        rcases List.mem_cons.mp hq2 with rfl | hq3
        · exact le_refl _
        · exact List.rel_of_sorted_cons hsort q hq3
      have herase : ((sims.map (·.2)).erase t0).Perm (t1 :: rest) := by
        have h2 := hperm.symm.erase t0
        rw [List.erase_cons_head] at h2
        exact h2.symm.symm
      have ht1mem : t1 ∈ (sims.map (·.2)).erase t0 :=
        herase.mem_iff.mpr (List.mem_cons_self _ _)
      have ht1max : ∀ q ∈ (sims.map (·.2)).erase t0, q ≤ t1 := by
        intro q hq
        have hq2 : q ∈ t1 :: rest := herase.mem_iff.mp hq
        rcases List.mem_cons.mp hq2 with rfl | hq3
        · exact le_refl _
        · exact List.rel_of_sorted_cons hsort.of_cons q hq3
      rw [hval, decide_eq_true_eq]
      constructor
      · intro hgap
        refine ⟨t0, t1, ⟨ht0mem, ht0max⟩, ⟨ht1mem, ht1max⟩, ?_⟩
        rw [← jsAbs_eq_abs]
        exact hgap
      · rintro ⟨u0, u1, ⟨hu0mem, hu0max⟩, ⟨hu1mem, hu1max⟩, hgap⟩
        have hu0 : u0 = t0 := le_antisymm (ht0max u0 hu0mem) (hu0max t0 ht0mem)
        subst hu0
        have hu1 : u1 = t1 := le_antisymm (ht1max u1 hu1mem) (hu1max t1 ht1mem)
        subst hu1
        rw [jsAbs_eq_abs]
        exact hgap

theorem classifyFeedback_ok {sim : SimFn} {v : Vec} {anchors : List CategoryEmbeddings}
    {fc : FeedbackClassifications} (h : classifyFeedback sim v anchors = .ok fc) :
    ∃ outs, categoryOutcomes sim v anchors = .ok outs ∧
      fc.needsRefinement = (decide (lowestConfidenceOf outs < mkRat 65 100) ||
        hasCriticalUrgencyOf outs || hasMixedSentimentOf outs) ∧
      fc.refinementReason =
        (if (decide (lowestConfidenceOf outs < mkRat 65 100) ||
              hasCriticalUrgencyOf outs || hasMixedSentimentOf outs) = true then
          if lowestConfidenceOf outs < mkRat 65 100 then some "low_confidence"
          else if hasCriticalUrgencyOf outs = true then some "critical_urgency"
          else if hasMixedSentimentOf outs = true then some "mixed_sentiment"
          else none
        else none) := by
  cases houts : categoryOutcomes sim v anchors with
  | error e =>
    unfold classifyFeedback at h
    rw [houts, bind_error_eq] at h
    exact absurd h (by simp)
  | ok outs =>
    unfold classifyFeedback at h
    rw [houts, bind_ok_eq] at h
    simp only [pure, Except.pure, Except.ok.injEq] at h
    subst h
    exact ⟨outs, rfl, rfl, rfl⟩

/-- C4: in the single-item classification path, `needsRefinement` holds
exactly when (a) some category's best score is below `0.65` (equivalently
the tracked lowest confidence is), or (b) the urgency category's raw
pre-downgrade winner is `critical`, or (c) the polarity category's two
largest candidate scores differ by less than `0.15`; and
`refinementReason` reports the FIRST matching condition in the order
(a) `low_confidence`, (b) `critical_urgency`, (c) `mixed_sentiment` — in
particular (a)'s reason wins whenever (a) holds, regardless of (b), (c). -/
theorem refinement_trigger_spec (sim : SimFn) (v : Vec)
    (anchors : List CategoryEmbeddings) (fc : FeedbackClassifications)
    (hcanon : urgencyLabelsCanonical anchors)
    (hok : classifyFeedback sim v anchors = .ok fc) :
    refinementSpecStatement sim v anchors fc := by
  obtain ⟨outs, houts, hneeds, hreason⟩ := classifyFeedback_ok hok
  have hlowiff : (∃ o ∈ outs, o.best.2 < mkRat 65 100) ↔
      lowestConfidenceOf outs < mkRat 65 100 := by
    unfold lowestConfidenceOf
    rw [lowest_fold_lt]
    constructor
    · intro h2; exact Or.inr h2
    · rintro (h1 | h2)
      · exact absurd h1 (by decide)
      · exact h2
  have hmixiff : hasMixedSentimentOf outs = true ↔
      ∃ o ∈ outs, o.categoryData.category = "polarity" ∧
        specTopTwoGapSmall (o.similarities.map (·.2)) := by
    unfold hasMixedSentimentOf
    rw [List.any_eq_true]
    constructor
    · rintro ⟨o, ho, hcond⟩
      rw [Bool.and_eq_true, beq_iff_eq] at hcond
      exact ⟨o, ho, hcond.1, (mixedSentimentCheck_iff o.similarities).mp hcond.2⟩
    · rintro ⟨o, ho, hcat, hspec⟩
      refine ⟨o, ho, ?_⟩
      rw [Bool.and_eq_true, beq_iff_eq]
      exact ⟨hcat, (mixedSentimentCheck_iff o.similarities).mpr hspec⟩
  have hcritiff := hasCritical_iff hcanon houts
  refine ⟨outs, houts, ?_, hlowiff, ?_, ?_, ?_, ?_⟩
  · rw [hneeds]
    simp only [Bool.or_eq_true, decide_eq_true_eq]
    rw [hcritiff, hmixiff, ← hlowiff, or_assoc]
  · intro hlow
    rw [hreason]
    have hcond : (decide (lowestConfidenceOf outs < mkRat 65 100) ||
        hasCriticalUrgencyOf outs || hasMixedSentimentOf outs) = true := by
      simp [hlow]
    rw [if_pos hcond, if_pos hlow]
  · intro hnlow hcrit
    rw [hreason]
    have hcond : (decide (lowestConfidenceOf outs < mkRat 65 100) ||
        hasCriticalUrgencyOf outs || hasMixedSentimentOf outs) = true := by
      simp [hcrit]
    rw [if_pos hcond, if_neg hnlow, if_pos hcrit]
  · intro hnlow hncrit hmix
    rw [hreason]
    have hcond : (decide (lowestConfidenceOf outs < mkRat 65 100) ||
        hasCriticalUrgencyOf outs || hasMixedSentimentOf outs) = true := by
      simp [hmix]
    rw [if_pos hcond, if_neg hnlow, if_neg (by simp [hncrit]), if_pos hmix]
  · intro hfalse
    rw [hreason]
    rw [hneeds] at hfalse
    rw [if_neg (by simp [hfalse])]

set_option maxRecDepth 10000 in
/-- C4 witness: with zero-scoring similarities against the urgency-only
anchor set, the lowest confidence `0 < 0.65` triggers refinement and the
reason is `low_confidence` even though the raw urgency winner is also
`critical` (condition (b) holds too) — first-match order (a) → (b) → (c). -/
theorem refinement_trigger_spec_witness :
    refinementSpecStatement simZero [] [cdUrgency] fcUrgencyZero :=
  refinement_trigger_spec simZero [] [cdUrgency] fcUrgencyZero
    (by unfold urgencyLabelsCanonical; decide) (by decide)

end Nabu
